import Mathlib

/-!
Shallow embedding of `src/csv_converter.py` (excel-to-csv-converter).

The program loads a spreadsheet into a table, optionally narrows it to the
first column containing email addresses (detected with the regular expression
`\b[A-Za-z0-9._%+-]+@[A-Za-z0-9.-]+\.[A-Z|a-z]{2,}\b`), and writes the result
as comma-separated text.  Filesystem effects (reading a spreadsheet, writing
the output file, listing a directory) are modelled by explicit oracles, and
the observable effects (stderr lines, stdout lines, converter invocations,
file writes, exit code) are returned as data.
-/

namespace CsvConverter

/-- A cell of a loaded table: textual, numeric, or blank (NaN).  This is the
tagged-variant model of the dynamically typed pandas cells: the program only
distinguishes textual values (eligible for the email pattern), non-textual
values (which make a column non-string-typed), and blanks (`na=False` makes
them never match). -/
inductive Cell where
  | str (s : String)
  | num (n : Int)
  | blank
deriving DecidableEq, Repr

/-- A loaded table: ordered sequence of named columns, each with its ordered
cell values (the pandas `DataFrame` as far as this program observes it). -/
structure Table where
  cols : List (String × List Cell)
deriving DecidableEq, Repr

/-! ## The email regular expression

`email_pattern = r'\b[A-Za-z0-9._%+-]+@[A-Za-z0-9.-]+\.[A-Z|a-z]{2,}\b'`
(src/csv_converter.py line 29), used via `Series.str.contains`, i.e. a
substring search.  We model a successful `re.search` as the existence of a
decomposition of the character list into
`pre ++ local ++ '@' ++ domain ++ '.' ++ tld ++ suf` with the character-class
and word-boundary constraints of the pattern.  Note the class `[A-Z|a-z]`
contains the literal bar character. -/

/-- `\w` for the ASCII range: letters, digits, underscore (word characters,
used by the `\b` boundary assertions).  The pattern's own character classes
are ASCII-only, so the model is exact on ASCII input; only boundary checks
adjacent to non-ASCII characters are approximated. -/
def isWordChar (c : Char) : Bool :=
  ('A' ≤ c && c ≤ 'Z') || ('a' ≤ c && c ≤ 'z') || ('0' ≤ c && c ≤ '9') || c == '_'

/-- The class `[A-Za-z0-9._%+-]` (the local part of the pattern). -/
def localChar (c : Char) : Bool :=
  ('A' ≤ c && c ≤ 'Z') || ('a' ≤ c && c ≤ 'z') || ('0' ≤ c && c ≤ '9') ||
    c == '.' || c == '_' || c == '%' || c == '+' || c == '-'

/-- The class `[A-Za-z0-9.-]` (the domain part of the pattern). -/
def domainChar (c : Char) : Bool :=
  ('A' ≤ c && c ≤ 'Z') || ('a' ≤ c && c ≤ 'z') || ('0' ≤ c && c ≤ '9') ||
    c == '.' || c == '-'

/-- The class `[A-Z|a-z]` (the final segment of the pattern).  It is the union
of `A-Z`, the literal `|`, and `a-z`: the bar is a member of the class. -/
def tldChar (c : Char) : Bool :=
  ('A' ≤ c && c ≤ 'Z') || c == '|' || ('a' ≤ c && c ≤ 'z')

/-- Word-ness of the character on one side of a `\b` assertion; `none` stands
for the edge of the string (not a word character). -/
def wordOpt : Option Char → Bool
  | none => false
  | some c => isWordChar c

/-- All ways to split a list into a prefix and a suffix, in order. -/
def allSplits : List Char → List (List Char × List Char)
  | [] => [([], [])]
  | c :: cs => ([], c :: cs) :: (allSplits cs).map (fun p => (c :: p.1, p.2))

/-- Executable model of `re.search(email_pattern, s)` on a character list:
search over every decomposition for a word-bounded
`local+ '@' domain+ '.' tld{2,}` occurrence. -/
def emailSearchL (s : List Char) : Bool :=
  (allSplits s).any (fun p1 =>
    (allSplits p1.2).any (fun p2 =>
      match p2.2 with
      | '@' :: r2 =>
        !p2.1.isEmpty && p2.1.all localChar &&
          (wordOpt p1.1.getLast? != wordOpt p2.1.head?) &&
          (allSplits r2).any (fun p3 =>
            match p3.2 with
            | '.' :: r3 =>
              !p3.1.isEmpty && p3.1.all domainChar &&
                (allSplits r3).any (fun p4 =>
                  decide (2 ≤ p4.1.length) && p4.1.all tldChar &&
                    (wordOpt p4.1.getLast? != wordOpt p4.2.head?))
            | _ => false)
      | _ => false))

/-- `re.search(email_pattern, s)` on a string. -/
def emailSearch (s : String) : Bool :=
  emailSearchL s.data

/-! ## The detector `find_email_column` (lines 19-35) -/

/-- Model of `pd.api.types.is_string_dtype(df[column])`: every non-blank value
of the column is textual (the spec's "string-typed" and the behavior of the
dtype inference for columns loaded from a spreadsheet). -/
def isStringTyped (vals : List Cell) : Bool :=
  vals.all (fun c => match c with
    | Cell.num _ => false
    | _ => true)

/-- One cell of `Series.str.contains(email_pattern, na=False)`: blanks are
`False` (`na=False`), textual cells are searched for the pattern. -/
def cellMatches (c : Cell) : Bool :=
  match c with
  | Cell.str s => emailSearch s
  | _ => false

/-- The per-column test of the loop body: string-typed and
`str.contains(email_pattern, na=False).any()`. -/
def columnQualifies (p : String × List Cell) : Bool :=
  isStringTyped p.2 && p.2.any cellMatches

/-- `find_email_column(df)`: first column (in column order) that is
string-typed and has some value matching the email pattern; `None` otherwise. -/
def find_email_column (df : Table) : Option String :=
  (df.cols.find? columnQualifies).map Prod.fst

/-! ## CSV serialization (`df.to_csv(output_path, index=False, encoding='utf-8')`)

Modelled as producing the output file's text: a header row of the column
names, then one line per data row, comma-separated, minimally quoted, no
row-index column (`index=False`), blanks as empty fields. -/

/-- Minimal CSV field quoting: a field containing a comma, a double quote or a
line break is wrapped in double quotes with inner quotes doubled. -/
def csvQuote (s : String) : String :=
  if s.data.any (fun c => c == ',' || c == '"' || c == '\n' || c == '\r') then
    "\"" ++ String.mk (s.data.foldr
      (fun c acc => if c == '"' then '"' :: '"' :: acc else c :: acc) []) ++ "\""
  else s

/-- How one cell serializes: text quoted as needed, numbers printed, blanks as
the empty field. -/
def cellField : Cell → String
  | Cell.str s => csvQuote s
  | Cell.num n => toString n
  | Cell.blank => ""

/-- One comma-separated output line. -/
def csvLine (fields : List String) : String :=
  String.intercalate "," fields

/-- The output text: every line terminated by a newline. -/
def csvText : List String → String
  | [] => ""
  | l :: ls => l ++ "\n" ++ csvText ls

/-- Number of data rows of the table (columns of a loaded DataFrame all have
this length; ragged columns are padded with blanks). -/
def nRows (df : Table) : Nat :=
  (df.cols.map (fun c => c.2.length)).foldr Nat.max 0

/-- The `i`-th data row: one cell per column, in column order. -/
def rowCells (df : Table) (i : Nat) : List Cell :=
  df.cols.map (fun c => c.2.getD i Cell.blank)

/-- `df.to_csv(path, index=False, encoding='utf-8')`: the text written to the
output file. -/
def to_csv (df : Table) : String :=
  csvText
    (csvLine (df.cols.map (fun c => csvQuote c.1)) ::
      (List.range (nRows df)).map (fun i => csvLine ((rowCells df i).map cellField)))

/-! ## The converter `convert_file` (lines 37-75) -/

/-- The table transformation of `convert_file`: in email-only mode, when a
column is detected, `df = df[[email_col]]` (projection to the columns with
that name); otherwise the table is kept unchanged. -/
def convertTable (df : Table) (email_only : Bool) : Table :=
  if email_only then
    match find_email_column df with
    | some c => ⟨df.cols.filter (fun p => p.1 == c)⟩
    | none => df
  else df

/-- Observable outcome of one `convert_file` call: the returned flag, the
stderr lines, and the file writes (path, content) it performed. -/
structure ConvOut where
  success : Bool
  err : List String
  writes : List (String × String)
deriving DecidableEq, Repr

/-- The error line of `convert_file`'s exception handler (line 74). -/
def errLine (input_path msg : String) : String :=
  "Error converting " ++ input_path ++ ": " ++ msg

/-- `convert_file(input_path, output_path, email_only)`.  The filesystem is an
oracle: `load p` is what `pd.read_excel(p)` does (a table, or an exception
message), `writeErr p` is `some e` when `to_csv` writing to `p` raises `e`.
The `try`/`except` around the body catches either failure, prints one line to
stderr and returns `False`; verbose progress prints to stdout are not
modelled. -/
def convert_file (load : String → Except String Table)
    (writeErr : String → Option String)
    (input_path output_path : String) (email_only : Bool) : ConvOut :=
  match load input_path with
  | Except.error e => ⟨false, [errLine input_path e], []⟩
  | Except.ok df =>
    match writeErr output_path with
    | some e => ⟨false, [errLine input_path e], []⟩
    | none => ⟨true, [], [(output_path, to_csv (convertTable df email_only))]⟩

/-! ## The directory driver `process_directory` (lines 77-113) -/

/-- `SUPPORTED_FORMATS` (line 17). -/
def SUPPORTED_FORMATS : List String := [".xlsx", ".xls"]

/-- `any(filename.lower().endswith(ext) for ext in SUPPORTED_FORMATS)`:
the name is lowercased character-by-character and tested for each supported
suffix (the extensions are ASCII, and `Char.toLower` agrees with Python's
`str.lower` there). -/
def extSupported (name : String) : Bool :=
  SUPPORTED_FORMATS.any (fun ext => List.isSuffixOf ext.data (name.data.map Char.toLower))

/-- Index of the last dot of a name, if any. -/
def lastDotIdx (l : List Char) : Option Nat :=
  ((List.range l.length).filter (fun i => l.getD i ' ' == '.')).getLast?

/-- `os.path.splitext(name)[0]` for a bare filename: everything before the
last dot, except that a name whose characters before its last dot are all dots
(a leading-dot name such as `.xlsx`) has no extension and is returned whole. -/
def splitextRoot (name : String) : String :=
  match lastDotIdx name.data with
  | none => name
  | some i =>
    if (name.data.take i).all (fun c => c == '.') then name
    else String.mk (name.data.take i)

/-- `os.path.splitext(filename)[0] + '.csv'` (line 105). -/
def outputName (filename : String) : String :=
  splitextRoot filename ++ ".csv"

/-- `os.path.join(d, n)` for a relative entry name `n` as produced by
`os.listdir`: a separator is inserted unless `d` is empty or already ends
with one. -/
def joinPath (d n : String) : String :=
  if d.data == [] then n
  else if d.data.getLast? == some '/' then d ++ n
  else d ++ "/" ++ n

/-- Observable outcome of a directory run: the success count, stderr lines,
the converter invocations (input path, output path) in order, and the file
writes in order. -/
structure DirOut where
  count : Nat
  err : List String
  calls : List (String × String)
  writes : List (String × String)
deriving DecidableEq, Repr

/-- The loop of `process_directory` (lines 102-111) over the directory
listing: entries whose names end in a supported extension are converted (the
output filename replaces the extension with `.csv`), successes are counted;
other entries are skipped. -/
def procEntries (load : String → Except String Table)
    (writeErr : String → Option String)
    (input_dir output_dir : String) (email_only : Bool) : List String → DirOut
  | [] => ⟨0, [], [], []⟩
  | f :: rest =>
    if extSupported f then
      let ip := joinPath input_dir f
      let op := joinPath output_dir (outputName f)
      let c := convert_file load writeErr ip op email_only
      let r := procEntries load writeErr input_dir output_dir email_only rest
      ⟨(if c.success then 1 else 0) + r.count, c.err ++ r.err,
        (ip, op) :: r.calls, c.writes ++ r.writes⟩
    else
      procEntries load writeErr input_dir output_dir email_only rest

/-- The error line for a missing input directory (line 96). -/
def dirNotFoundLine (input_dir : String) : String :=
  "Error: Input directory not found: " ++ input_dir

/-- `process_directory(input_dir, output_dir, email_only)`: when the input
directory does not exist (`dirExists = false`), report the error and attempt
nothing; otherwise process the directory listing. -/
def process_directory (load : String → Except String Table)
    (writeErr : String → Option String) (dirExists : Bool)
    (listing : List String) (input_dir output_dir : String)
    (email_only : Bool) : DirOut :=
  if dirExists then procEntries load writeErr input_dir output_dir email_only listing
  else ⟨0, [dirNotFoundLine input_dir], [], []⟩

/-! ## The CLI entry point `main` (lines 115-173) -/

/-- The world `main` runs in: parsed arguments plus the filesystem oracles.
`inputIsFile` is `os.path.isfile(args.input)` (false for a nonexistent path),
`dirExists` is `os.path.exists(args.input)` as queried in directory mode,
`listing` is `os.listdir(args.input)` in its native order. -/
structure World where
  input : String
  output : String
  email_only : Bool
  verbose : Bool
  inputIsFile : Bool
  dirExists : Bool
  listing : List String
  load : String → Except String Table
  writeErr : String → Option String

/-- Observable outcome of the process: exit code, stdout lines, stderr lines,
file writes. -/
structure MainOut where
  exitCode : Nat
  out : List String
  err : List String
  writes : List (String × String)

/-- The unsupported-format error line (line 153). -/
def unsupportedLine : String :=
  "Error: Unsupported file format. Supported formats: .xlsx, .xls"

/-- The trailing count line of directory mode (line 170). -/
def countLine (n : Nat) : String :=
  "\nConverted " ++ toString n ++ " file(s)"

/-- `main()` after argument parsing: single-file mode when the input path is
an existing file (extension check, then one conversion, exit 1 on failure);
otherwise directory mode (exit 1 when zero files were converted). -/
def main (w : World) : MainOut :=
  if w.inputIsFile then
    if !extSupported w.input then
      ⟨1, [], [unsupportedLine], []⟩
    else
      let c := convert_file w.load w.writeErr w.input w.output w.email_only
      if c.success then
        ⟨0, ["Successfully converted to " ++ w.output], c.err, c.writes⟩
      else
        ⟨1, [], c.err, c.writes⟩
  else
    let r := process_directory w.load w.writeErr w.dirExists w.listing
      w.input w.output w.email_only
    let outLines := if w.verbose || r.count == 0 then [countLine r.count] else []
    ⟨if r.count == 0 then 1 else 0, outLines, r.err, r.writes⟩

/-- The content a path holds after a sequence of writes: its last write. -/
def lastWrite (writes : List (String × String)) (p : String) : Option String :=
  ((writes.filter (fun q => q.1 == p)).map Prod.snd).getLast?

/-! ## Spec-side definitions and concrete tables -/

/-- The spec-level qualification of a column: string-typed with at least one
non-blank value matching the email pattern. -/
def QualifiesSpec (p : String × List Cell) : Prop :=
  isStringTyped p.2 = true ∧ ∃ c ∈ p.2, c ≠ Cell.blank ∧ cellMatches c = true

instance (p : String × List Cell) : Decidable (QualifiesSpec p) := by
  unfold QualifiesSpec
  infer_instance

/-- The shape of a successful search for the email pattern: a word-bounded
occurrence of `local+ '@' domain+ '.' tld{2,}` with the pattern's character
classes (`tldChar` is the class `[A-Z|a-z]`, bar included). -/
def EmailDecomp (s : List Char) : Prop :=
  ∃ pre loc dom tld suf : List Char,
    s = pre ++ (loc ++ '@' :: (dom ++ '.' :: (tld ++ suf))) ∧
    loc ≠ [] ∧ loc.all localChar = true ∧
    dom ≠ [] ∧ dom.all domainChar = true ∧
    2 ≤ tld.length ∧ tld.all tldChar = true ∧
    wordOpt pre.getLast? ≠ wordOpt loc.head? ∧
    wordOpt tld.getLast? ≠ wordOpt suf.head?

/-- The final character class as the claim states it: two or more *alphabetic*
characters, without the literal bar.  (Follows the claim's words, to be
compared with `tldChar` from the source.) -/
def specTldChar (c : Char) : Bool :=
  ('A' ≤ c && c ≤ 'Z') || ('a' ≤ c && c ≤ 'z')

/-- The email search as the claim describes it: identical to `emailSearchL`
except that the final segment must be alphabetic (`specTldChar`).  (Follows
the claim's words, to be compared with `emailSearchL` from the source.) -/
def emailSearchSpecL (s : List Char) : Bool :=
  (allSplits s).any (fun p1 =>
    (allSplits p1.2).any (fun p2 =>
      match p2.2 with
      | '@' :: r2 =>
        !p2.1.isEmpty && p2.1.all localChar &&
          (wordOpt p1.1.getLast? != wordOpt p2.1.head?) &&
          (allSplits r2).any (fun p3 =>
            match p3.2 with
            | '.' :: r3 =>
              !p3.1.isEmpty && p3.1.all domainChar &&
                (allSplits r3).any (fun p4 =>
                  decide (2 ≤ p4.1.length) && p4.1.all specTldChar &&
                    (wordOpt p4.1.getLast? != wordOpt p4.2.head?))
            | _ => false)
      | _ => false))

/-- A concrete table whose `contact` column holds an email address. -/
def dfContact : Table :=
  ⟨[("name", [Cell.str "ann"]), ("contact", [Cell.str "jane@example.com"])]⟩

/-- A concrete table with no email-like value anywhere. -/
def dfPlain : Table :=
  ⟨[("name", [Cell.str "bob"]), ("n", [Cell.num 3])]⟩

/-- A concrete two-column table with no email-like value anywhere. -/
def dfTwo : Table :=
  ⟨[("a", [Cell.num 1]), ("b", [Cell.num 2])]⟩

/-! ## Helper lemmas -/

theorem mem_allSplits (s : List Char) (p : List Char × List Char) :
    p ∈ allSplits s ↔ p.1 ++ p.2 = s := by
  obtain ⟨a, b⟩ := p
  induction s generalizing a b with
  | nil => simp [allSplits]
  | cons c cs ih =>
    simp only [allSplits, List.mem_cons, List.mem_map, Prod.mk.injEq]
    constructor
    · rintro (⟨rfl, rfl⟩ | ⟨⟨x, y⟩, hq, rfl, rfl⟩)
      · rfl
      · have : x ++ y = cs := (ih x y).mp hq
        simp [this]
    · intro h
      cases a with
      | nil => left; simpa using h
      | cons a0 as =>
        right
        have h0 : a0 = c := by simpa using congrArg (fun l => l.head?) h
        have hrest : as ++ b = cs := by
          subst h0
          simpa using h
        exact ⟨⟨as, b⟩, (ih as b).mpr hrest, by rw [h0], rfl⟩

theorem find?_eq_some_first {α : Type} (p : α → Bool) (l : List α) (a : α) :
    l.find? p = some a ↔
      ∃ l₁ l₂, l = l₁ ++ a :: l₂ ∧ p a = true ∧ ∀ x ∈ l₁, p x = false := by
  induction l with
  | nil =>
    simp only [List.find?_nil]
    constructor
    · intro h; cases h
    · rintro ⟨l₁, l₂, hl, -, -⟩
      exact absurd hl.symm (by simp)
  | cons b t ih =>
    cases hb : p b with
    | true =>
      rw [List.find?_cons_of_pos _ hb]
      constructor
      · rintro h
        injection h with h
        exact ⟨[], t, by rw [h]; rfl, h ▸ hb, by simp⟩
      · rintro ⟨l₁, l₂, hl, hpa, hfirst⟩
        cases l₁ with
        | nil => simpa using congrArg (fun l => (l.head? : Option α)) hl
        | cons x xs =>
          have hbx : b = x := by simpa using congrArg (fun l => l.head?) hl
          have := hfirst x (by simp)
          rw [← hbx, hb] at this
          cases this
    | false =>
      rw [List.find?_cons_of_neg _ (by simp [hb])]
      rw [ih]
      constructor
      · rintro ⟨l₁, l₂, rfl, hpa, hfirst⟩
        refine ⟨b :: l₁, l₂, rfl, hpa, ?_⟩
        intro x hx
        rcases List.mem_cons.mp hx with rfl | hx
        · exact hb
        · exact hfirst x hx
      · rintro ⟨l₁, l₂, hl, hpa, hfirst⟩
        cases l₁ with
        | nil =>
          have hba : b = a := by simpa using congrArg (fun l => l.head?) hl
          rw [hba, hpa] at hb
          cases hb
        | cons x xs =>
          have hbx : b = x := by simpa using congrArg (fun l => l.head?) hl
          have ht : t = xs ++ a :: l₂ := by
            subst hbx
            simpa using hl
          exact ⟨xs, l₂, ht, hpa, fun y hy => hfirst y (List.mem_cons_of_mem _ hy)⟩

theorem columnQualifies_iff (p : String × List Cell) :
    columnQualifies p = true ↔ QualifiesSpec p := by
  unfold columnQualifies QualifiesSpec
  rw [Bool.and_eq_true, List.any_eq_true]
  constructor
  · rintro ⟨hs, c, hc, hm⟩
    refine ⟨hs, c, hc, ?_, hm⟩
    rintro rfl
    simp [cellMatches] at hm
  · rintro ⟨hs, c, hc, -, hm⟩
    exact ⟨hs, c, hc, hm⟩

theorem emailSearchL_iff (s : List Char) : emailSearchL s = true ↔ EmailDecomp s := by
  unfold emailSearchL EmailDecomp
  rw [List.any_eq_true]
  constructor
  · rintro ⟨p1, hp1, h1⟩
    rw [List.any_eq_true] at h1
    obtain ⟨p2, hp2, h2⟩ := h1
    split at h2
    case h_2 => cases h2
    case h_1 r2 heq =>
      simp only [Bool.and_eq_true] at h2
      obtain ⟨⟨⟨hne, hloc⟩, hbd⟩, h3⟩ := h2
      rw [List.any_eq_true] at h3
      obtain ⟨p3, hp3, h4⟩ := h3
      split at h4
      case h_2 => cases h4
      case h_1 r3 heq3 =>
        simp only [Bool.and_eq_true] at h4
        obtain ⟨⟨hdne, hdom⟩, h5⟩ := h4
        rw [List.any_eq_true] at h5
        obtain ⟨p4, hp4, h6⟩ := h5
        simp only [Bool.and_eq_true] at h6
        obtain ⟨⟨hlen, htld⟩, hbd2⟩ := h6
        refine ⟨p1.1, p2.1, p3.1, p4.1, p4.2, ?_, ?_, hloc, ?_, hdom,
          of_decide_eq_true hlen, htld, ?_, ?_⟩
        · rw [← (mem_allSplits s p1).mp hp1, ← (mem_allSplits p1.2 p2).mp hp2, heq,
            ← (mem_allSplits r2 p3).mp hp3, heq3, ← (mem_allSplits r3 p4).mp hp4]
        · simpa using hne
        · simpa using hdne
        · simpa [bne_iff_ne] using hbd
        · simpa [bne_iff_ne] using hbd2
  · rintro ⟨pre, loc, dom, tld, suf, rfl, hlne, hlall, hdne, hdall, htlen, htall, hb1, hb2⟩
    refine ⟨⟨pre, loc ++ '@' :: (dom ++ '.' :: (tld ++ suf))⟩,
      (mem_allSplits _ _).mpr rfl, ?_⟩
    rw [List.any_eq_true]
    refine ⟨⟨loc, '@' :: (dom ++ '.' :: (tld ++ suf))⟩,
      (mem_allSplits _ _).mpr rfl, ?_⟩
    show (!loc.isEmpty && loc.all localChar &&
        (wordOpt pre.getLast? != wordOpt loc.head?) && _) = true
    simp only [Bool.and_eq_true]
    refine ⟨⟨⟨by simpa using hlne, hlall⟩, by simpa [bne_iff_ne] using hb1⟩, ?_⟩
    rw [List.any_eq_true]
    refine ⟨⟨dom, '.' :: (tld ++ suf)⟩, (mem_allSplits _ _).mpr rfl, ?_⟩
    show (!dom.isEmpty && dom.all domainChar && _) = true
    simp only [Bool.and_eq_true]
    refine ⟨⟨by simpa using hdne, hdall⟩, ?_⟩
    rw [List.any_eq_true]
    exact ⟨⟨tld, suf⟩, (mem_allSplits _ _).mpr rfl,
      by simp [htall, htlen, bne_iff_ne, hb2]⟩

theorem joinPath_inj (d : String) {a b : String}
    (h : joinPath d a = joinPath d b) : a = b := by
  have key : ∀ p x y : String, p ++ x = p ++ y → x = y := by
    intro p x y hxy
    apply String.ext
    have hdata := congrArg String.data hxy
    rw [String.data_append, String.data_append] at hdata
    exact List.append_cancel_left hdata
  by_cases h0 : (d.data == []) = true
  · simpa [joinPath, h0] using h
  · by_cases hs : (d.data.getLast? == some '/') = true
    · have ha : joinPath d a = d ++ a := by simp [joinPath, h0, hs]
      have hb : joinPath d b = d ++ b := by simp [joinPath, h0, hs]
      rw [ha, hb] at h
      exact key _ _ _ h
    · have ha : joinPath d a = d ++ "/" ++ a := by simp [joinPath, h0, hs]
      have hb : joinPath d b = d ++ "/" ++ b := by simp [joinPath, h0, hs]
      rw [ha, hb] at h
      exact key _ _ _ h

theorem filter_key_eq {l : List (String × List Cell)} {x : String × List Cell}
    (hn : (l.map Prod.fst).Nodup) (hx : x ∈ l) :
    l.filter (fun p => p.1 == x.1) = [x] := by
  induction l with
  | nil => cases hx
  | cons y t ih =>
    rw [List.map_cons, List.nodup_cons] at hn
    obtain ⟨hy, hn'⟩ := hn
    rcases List.mem_cons.mp hx with rfl | hx'
    · rw [List.filter_cons, if_pos (by simp)]
      have ht : t.filter (fun p => p.1 == x.1) = [] := by
        rw [List.filter_eq_nil_iff]
        intro a ha hcontra
        exact hy (by
          have hax : a.1 = x.1 := by simpa using hcontra
          rw [← hax]
          exact List.mem_map.mpr ⟨a, ha, rfl⟩)
      rw [ht]
    · have hne : (y.1 == x.1) = false := by
        have : y.1 ≠ x.1 := by
          intro hcontra
          exact hy (hcontra ▸ List.mem_map.mpr ⟨x, hx', rfl⟩)
        simpa using this
      rw [List.filter_cons, if_neg (by simp [hne])]
      exact ih hn' hx'

theorem procEntries_spec (load : String → Except String Table)
    (writeErr : String → Option String) (din dout : String) (eo : Bool)
    (L : List String) :
    (procEntries load writeErr din dout eo L).calls =
      (L.filter extSupported).map
        (fun n => (joinPath din n, joinPath dout (outputName n))) ∧
    (procEntries load writeErr din dout eo L).count =
      ((L.filter extSupported).filter (fun n =>
        (convert_file load writeErr (joinPath din n)
          (joinPath dout (outputName n)) eo).success)).length := by
  induction L with
  | nil => exact ⟨rfl, rfl⟩
  | cons f rest ih =>
    by_cases hf : extSupported f = true
    · cases hs : (convert_file load writeErr (joinPath din f)
        (joinPath dout (outputName f)) eo).success with
      | true => simp [procEntries, hf, List.filter_cons, hs, ih.1, ih.2, Nat.add_comm]
      | false => simp [procEntries, hf, List.filter_cons, hs, ih.1, ih.2]
    · have hf' : extSupported f = false := by simpa using hf
      simp [procEntries, hf', List.filter_cons, ih.1, ih.2]

/-! ## The claims -/

/-- Claim C1: for every table, `find_email_column` returns the name of the
first column, in the table's defined column order, that is string-typed and
has at least one non-blank value matching the email pattern; columns that are
not string-typed are skipped (they cannot qualify), and when no column
qualifies it returns none. -/
theorem C1_detect_first_qualifying (df : Table) :
    (find_email_column df = none ↔ ∀ p ∈ df.cols, ¬ QualifiesSpec p) ∧
    (∀ n, find_email_column df = some n ↔
      ∃ l₁ q l₂, df.cols = l₁ ++ q :: l₂ ∧ q.1 = n ∧ QualifiesSpec q ∧
        ∀ p ∈ l₁, ¬ QualifiesSpec p) := by
  constructor
  · unfold find_email_column
    rw [Option.map_eq_none', List.find?_eq_none]
    constructor
    · intro h p hp hq
      exact h p hp ((columnQualifies_iff p).mpr hq)
    · intro h p hp hq
      exact h p hp ((columnQualifies_iff p).mp hq)
  · intro n
    unfold find_email_column
    rw [Option.map_eq_some']
    constructor
    · rintro ⟨q, hq, rfl⟩
      obtain ⟨l₁, l₂, hcols, hq1, hfirst⟩ := (find?_eq_some_first _ _ _).mp hq
      refine ⟨l₁, q, l₂, hcols, rfl, (columnQualifies_iff q).mp hq1, ?_⟩
      intro p hp hqs
      have := hfirst p hp
      rw [(columnQualifies_iff p).mpr hqs] at this
      cases this
    · rintro ⟨l₁, q, l₂, hcols, rfl, hq, hfirst⟩
      refine ⟨q, (find?_eq_some_first _ _ _).mpr
        ⟨l₁, l₂, hcols, (columnQualifies_iff q).mpr hq, ?_⟩, rfl⟩
      intro x hx
      cases hcq : columnQualifies x with
      | false => rfl
      | true => exact absurd ((columnQualifies_iff x).mp hcq) (hfirst x hx)

/-- Claim C1 (witness): on the concrete table `dfContact`, the theorem yields
the detected column `contact`, first in order to qualify. -/
theorem C1_detect_first_qualifying_witness :
    find_email_column dfContact = some "contact" :=
  ((C1_detect_first_qualifying dfContact).2 "contact").mpr
    ⟨[("name", [Cell.str "ann"])], ("contact", [Cell.str "jane@example.com"]), [],
      rfl, rfl, by decide, by decide⟩

/-- Claim C2 (counterexample): the string `a@b.|a` matches the code's email
pattern (the class `[A-Z|a-z]` contains the literal bar), yet its final
segment after the last dot, `|a`, is not made of alphabetic characters: the
claim's alphabetic-only reading of the pattern rejects it. -/
theorem C2_tld_bar_counterexample :
    emailSearch "a@b.|a" = true ∧ emailSearchSpecL "a@b.|a".data = false := by
  decide

/-- Claim C2 (amended): a cell value matches the email pattern exactly when it
contains a word-bounded substring `local@domain.tld` where `local` is one or
more of `[A-Za-z0-9._%+-]`, `domain` is one or more of `[A-Za-z0-9.-]`, and
`tld` is two or more characters of the class `[A-Z|a-z]` — alphabetic or the
literal bar, which the class contains — so the final segment need not be
all-alphabetic. -/
theorem C2_email_pattern_amended (s : String) :
    (emailSearch s = true ↔ EmailDecomp s.data) ∧ tldChar '|' = true :=
  ⟨emailSearchL_iff s.data, rfl⟩

/-- Claim C3: with `email_only = true` and no email-like value anywhere in the
table, the detector finds nothing, the table is kept unchanged, and a
successful conversion writes the serialization of the full input table. -/
theorem C3_no_email_fallback (df : Table)
    (h : ∀ p ∈ df.cols, ∀ c ∈ p.2, cellMatches c = false) :
    find_email_column df = none ∧ convertTable df true = df ∧
    ∀ load writeErr ip op, load ip = Except.ok df → writeErr op = none →
      convert_file load writeErr ip op true = ⟨true, [], [(op, to_csv df)]⟩ := by
  have hnone : find_email_column df = none := by
    unfold find_email_column
    rw [Option.map_eq_none', List.find?_eq_none]
    intro p hp hq
    obtain ⟨-, c, hc, -, hm⟩ := (columnQualifies_iff p).mp hq
    rw [h p hp c hc] at hm
    cases hm
  have hconv : convertTable df true = df := by
    simp [convertTable, hnone]
  refine ⟨hnone, hconv, ?_⟩
  intro load writeErr ip op hl hw
  simp [convert_file, hl, hw, hconv]

/-- Claim C3 (witness): the fallback on the concrete email-free table
`dfPlain`: both the detector result and a full successful conversion. -/
theorem C3_no_email_fallback_witness :
    find_email_column dfPlain = none ∧ convertTable dfPlain true = dfPlain ∧
    convert_file (fun _ => Except.ok dfPlain) (fun _ => none)
      "in.xlsx" "out.csv" true = ⟨true, [], [("out.csv", to_csv dfPlain)]⟩ := by
  obtain ⟨h1, h2, h3⟩ := C3_no_email_fallback dfPlain (by decide)
  exact ⟨h1, h2, h3 _ _ "in.xlsx" "out.csv" rfl rfl⟩

/-- Claim C4: a failure of loading or of writing is caught inside
`convert_file`: the function (total in this embedding, so it propagates
nothing) returns false, performs no write, and emits exactly one stderr line,
which contains the input path and the exception's message as substrings. -/
theorem C4_errors_caught (load : String → Except String Table)
    (writeErr : String → Option String) (ip op : String) (eo : Bool) (e : String) :
    (load ip = Except.error e →
      convert_file load writeErr ip op eo = ⟨false, [errLine ip e], []⟩) ∧
    (∀ df, load ip = Except.ok df → writeErr op = some e →
      convert_file load writeErr ip op eo = ⟨false, [errLine ip e], []⟩) ∧
    List.IsInfix ip.data (errLine ip e).data ∧
    List.IsInfix e.data (errLine ip e).data := by
  refine ⟨?_, ?_, ?_, ?_⟩
  · intro hl
    simp [convert_file, hl]
  · intro df hl hw
    simp [convert_file, hl, hw]
  · exact ⟨"Error converting ".data, (": " ++ e).data,
      by simp [errLine, String.data_append]⟩
  · exact ⟨("Error converting " ++ ip ++ ": ").data, [],
      by simp [errLine, String.data_append]⟩

/-- Claim C4 (witness): a concrete failing load is caught and reported with
the path and message. -/
theorem C4_errors_caught_witness :
    convert_file (fun _ => Except.error "boom") (fun _ => none)
      "a.xlsx" "b.csv" true = ⟨false, [errLine "a.xlsx" "boom"], []⟩ :=
  (C4_errors_caught (fun _ => Except.error "boom") (fun _ => none)
    "a.xlsx" "b.csv" true "boom").1 rfl

/-- Claim C5: exit codes — 0 on single-file success, 1 on an unsupported
extension, on single-file failure, and on a batch run converting zero files
(0 when at least one file converts).  A nonexistent input file such as
`report.xlsx` is not a file, so the run takes the directory branch, reports
`report.xlsx` in an error line and exits 1. -/
theorem C5_exit_codes (w : World) :
    (w.inputIsFile = true → extSupported w.input = false →
      main w = ⟨1, [], [unsupportedLine], []⟩) ∧
    (w.inputIsFile = true → extSupported w.input = true →
      ((convert_file w.load w.writeErr w.input w.output w.email_only).success = true →
        (main w).exitCode = 0) ∧
      ((convert_file w.load w.writeErr w.input w.output w.email_only).success = false →
        (main w).exitCode = 1)) ∧
    (w.inputIsFile = false →
      ((process_directory w.load w.writeErr w.dirExists w.listing w.input w.output
          w.email_only).count = 0 → (main w).exitCode = 1) ∧
      (0 < (process_directory w.load w.writeErr w.dirExists w.listing w.input w.output
          w.email_only).count → (main w).exitCode = 0)) ∧
    (w.inputIsFile = false → w.dirExists = false → w.input = "report.xlsx" →
      (main w).exitCode = 1 ∧ (main w).err = [dirNotFoundLine "report.xlsx"] ∧
      List.IsInfix "report.xlsx".data (dirNotFoundLine "report.xlsx").data) := by
  refine ⟨?_, ?_, ?_, ?_⟩
  · intro hfile hext
    simp [main, hfile, hext]
  · intro hfile hext
    constructor
    · intro hsucc
      simp [main, hfile, hext, hsucc]
    · intro hfail
      simp [main, hfile, hext, hfail]
  · intro hfile
    constructor
    · intro hc
      simp [main, hfile, hc]
    · intro hc
      have hc' : ((process_directory w.load w.writeErr w.dirExists w.listing w.input
          w.output w.email_only).count == 0) = false := by
        simp [Nat.pos_iff_ne_zero.mp hc]
      simp [main, hfile, hc']
  · intro hfile hd hin
    have hp : process_directory w.load w.writeErr w.dirExists w.listing w.input
        w.output w.email_only = ⟨0, [dirNotFoundLine w.input], [], []⟩ := by
      rw [hd]
      simp [process_directory]
    have herr : (main w).err = [dirNotFoundLine w.input] := by
      simp [main, hfile, hp]
    rw [hin] at herr
    refine ⟨by simp [main, hfile, hp], herr, ?_⟩
    exact ⟨"Error: Input directory not found: ".data, [],
      by simp [dirNotFoundLine, String.data_append]⟩

/-- Claim C5 (witness): the scenario — `--input report.xlsx` with no such
file: the process exits 1 after an error line naming `report.xlsx`. -/
theorem C5_exit_codes_witness :
    (main ⟨"report.xlsx", "report.csv", true, false, false, false, [],
      fun _ => Except.error "missing", fun _ => none⟩).exitCode = 1 ∧
    (main ⟨"report.xlsx", "report.csv", true, false, false, false, [],
      fun _ => Except.error "missing", fun _ => none⟩).err =
      [dirNotFoundLine "report.xlsx"] := by
  have h := (C5_exit_codes ⟨"report.xlsx", "report.csv", true, false, false, false, [],
    fun _ => Except.error "missing", fun _ => none⟩).2.2.2 rfl rfl rfl
  exact ⟨h.1, h.2.1⟩

/-- Claim C6: in directory mode, exactly the entries whose names end
case-insensitively in a supported extension are passed to the converter, in
listing order, each with output filename derived by replacing the extension
with `.csv`; an entry whose name does not so end is never converted or
counted (the listing is processed at depth one, entries selected purely by
name, so nothing is recursed into). -/
theorem C6_directory_extension_filter (load : String → Except String Table)
    (writeErr : String → Option String) (din dout : String) (eo : Bool)
    (L : List String) :
    (process_directory load writeErr true L din dout eo).calls =
      (L.filter extSupported).map
        (fun n => (joinPath din n, joinPath dout (outputName n))) ∧
    (process_directory load writeErr true L din dout eo).count =
      ((L.filter extSupported).filter (fun n =>
        (convert_file load writeErr (joinPath din n)
          (joinPath dout (outputName n)) eo).success)).length ∧
    (∀ n, extSupported n = false → ∀ op,
      (joinPath din n, op) ∉ (process_directory load writeErr true L din dout eo).calls) := by
  have hp : process_directory load writeErr true L din dout eo =
      procEntries load writeErr din dout eo L := by
    simp [process_directory]
  obtain ⟨hc, hn⟩ := procEntries_spec load writeErr din dout eo L
  refine ⟨hp ▸ hc, hp ▸ hn, ?_⟩
  intro n hext op hmem
  rw [hp, hc] at hmem
  obtain ⟨n', hn', heq⟩ := List.mem_map.mp hmem
  have h1 : joinPath din n' = joinPath din n := congrArg Prod.fst heq
  have h2 : n' = n := joinPath_inj din h1
  subst h2
  have h3 : extSupported n' = true := (List.mem_filter.mp hn').2
  rw [hext] at h3
  cases h3

/-- Claim C6 (witness): a listing with `a.xlsx`, `notes.txt`, `b.XLS` — the
two spreadsheets are passed in order with `.csv` outputs, `notes.txt` never
is. -/
theorem C6_directory_extension_filter_witness :
    (process_directory (fun _ => Except.ok dfPlain) (fun _ => none) true
      ["a.xlsx", "notes.txt", "b.XLS"] "in" "out" true).calls =
      [("in/a.xlsx", "out/a.csv"), ("in/b.XLS", "out/b.csv")] ∧
    (joinPath "in" "notes.txt", "out/notes.csv") ∉
      (process_directory (fun _ => Except.ok dfPlain) (fun _ => none) true
        ["a.xlsx", "notes.txt", "b.XLS"] "in" "out" true).calls := by
  have h := C6_directory_extension_filter (fun _ => Except.ok dfPlain)
    (fun _ => none) "in" "out" true ["a.xlsx", "notes.txt", "b.XLS"]
  constructor
  · rw [h.1]
    decide
  · exact h.2.2 "notes.txt" (by decide) "out/notes.csv"

/-- Claim C7 (counterexample): in email-only mode, a table with two columns
and no email-like value anywhere keeps both columns (the fallback), so the
output has two data columns — refuting "never more than one data column". -/
theorem C7_single_column_counterexample :
    (convertTable dfTwo true).cols.length = 2 ∧
    ¬ (convertTable dfTwo true).cols.length ≤ 1 ∧
    to_csv (convertTable dfTwo true) = "a,b\n1,2\n" := by
  decide

/-- Claim C7 (amended): in email-only mode the output has exactly one data
column whenever an email column is detected (column names being unique, as
the spreadsheet loader guarantees); when none is detected the fallback keeps
exactly the input's columns; all-columns mode always emits exactly the
input's column set in original order. -/
theorem C7_projection_amended (df : Table) (hn : (df.cols.map Prod.fst).Nodup) :
    (∀ c, find_email_column df = some c →
      (convertTable df true).cols.length = 1 ∧
      (convertTable df true).cols.map Prod.fst = [c]) ∧
    (find_email_column df = none → convertTable df true = df) ∧
    convertTable df false = df := by
  refine ⟨?_, ?_, rfl⟩
  · intro c hc
    obtain ⟨q, hq, hq1⟩ := Option.map_eq_some'.mp hc
    have hmem : q ∈ df.cols := List.mem_of_find?_eq_some hq
    have hfilter : df.cols.filter (fun p => p.1 == q.1) = [q] :=
      filter_key_eq hn hmem
    have hct : convertTable df true = ⟨[q]⟩ := by
      simp [convertTable, find_email_column, hq, ← hq1, hfilter]
    rw [hct]
    refine ⟨rfl, ?_⟩
    simp [hq1]
  · intro hc
    simp [convertTable, hc]

/-- Claim C7 (witness): on `dfContact` the email-only output is the single
`contact` column; on the email-free `dfTwo` the fallback keeps both columns;
all-columns mode keeps `dfContact` whole. -/
theorem C7_projection_amended_witness :
    (convertTable dfContact true).cols.map Prod.fst = ["contact"] ∧
    convertTable dfTwo true = dfTwo ∧
    convertTable dfContact false = dfContact := by
  refine ⟨((C7_projection_amended dfContact (by decide)).1 "contact" (by decide)).2,
    (C7_projection_amended dfTwo (by decide)).2.1 (by decide),
    (C7_projection_amended dfContact (by decide)).2.2⟩

/-- Claim C8: a successful conversion writes exactly one file at the output
path holding the table's serialization: a comma-separated header row of the
column names followed by one comma-separated line per data row, with one
field per column (no row-index column) and blank cells as empty fields.
(The UTF-8 byte encoding itself is below the level of this embedding: Lean
strings are abstract character sequences.) -/
theorem C8_serialization (load : String → Except String Table)
    (writeErr : String → Option String) (ip op : String) (eo : Bool) (df : Table)
    (hl : load ip = Except.ok df) (hw : writeErr op = none) :
    convert_file load writeErr ip op eo =
      ⟨true, [], [(op, to_csv (convertTable df eo))]⟩ ∧
    (∀ d : Table, to_csv d =
      csvLine (d.cols.map (fun c => csvQuote c.1)) ++ "\n" ++
        csvText ((List.range (nRows d)).map
          (fun i => csvLine ((rowCells d i).map cellField)))) ∧
    (∀ d : Table, ∀ i, (rowCells d i).length = d.cols.length) ∧
    cellField Cell.blank = "" := by
  refine ⟨by simp [convert_file, hl, hw], fun d => rfl, ?_, rfl⟩
  intro d i
  simp [rowCells]

/-- Claim C8 (witness): a concrete successful conversion writes the expected
serialized text. -/
theorem C8_serialization_witness :
    convert_file (fun _ => Except.ok dfPlain) (fun _ => none)
      "i.xlsx" "o.csv" false =
      ⟨true, [], [("o.csv", to_csv (convertTable dfPlain false))]⟩ ∧
    to_csv dfPlain = "name,n\nbob,3\n" := by
  refine ⟨(C8_serialization (fun _ => Except.ok dfPlain) (fun _ => none)
    "i.xlsx" "o.csv" false dfPlain rfl rfl).1, by decide⟩

/-- Claim C9: a directory run on a nonexistent input directory reports one
error line to stderr, attempts no conversion and no write, and returns 0; the
caller then exits 1. -/
theorem C9_missing_dir (w : World) (hf : w.inputIsFile = false)
    (hd : w.dirExists = false) :
    process_directory w.load w.writeErr w.dirExists w.listing w.input w.output
      w.email_only = ⟨0, [dirNotFoundLine w.input], [], []⟩ ∧
    (main w).exitCode = 1 ∧ (main w).err = [dirNotFoundLine w.input] ∧
    (main w).writes = [] := by
  have hp : process_directory w.load w.writeErr w.dirExists w.listing w.input
      w.output w.email_only = ⟨0, [dirNotFoundLine w.input], [], []⟩ := by
    rw [hd]
    simp [process_directory]
  refine ⟨hp, ?_, ?_, ?_⟩ <;> simp [main, hf, hp]

/-- Claim C9 (witness): a concrete missing directory — reported, nothing
attempted, exit 1. -/
theorem C9_missing_dir_witness :
    process_directory (fun _ => Except.error "e") (fun _ => none) false
      ["a.xlsx"] "data_dir" "out_dir" true =
      ⟨0, [dirNotFoundLine "data_dir"], [], []⟩ ∧
    (main ⟨"data_dir", "out_dir", true, false, false, false, ["a.xlsx"],
      fun _ => Except.error "e", fun _ => none⟩).exitCode = 1 := by
  have h := C9_missing_dir ⟨"data_dir", "out_dir", true, false, false, false,
    ["a.xlsx"], fun _ => Except.error "e", fun _ => none⟩ rfl rfl
  exact ⟨h.1, h.2.1⟩

/-- Claim C10: two directory entries with the same stem and different
supported extensions derive the same output path; both are converted in
listing order, both successes are counted, and the later write overwrites the
earlier one, so the output file ends up with the second conversion's
content. -/
theorem C10_same_stem_overwrite (load : String → Except String Table)
    (writeErr : String → Option String) (din dout : String) (eo : Bool)
    (n1 n2 : String) (df1 df2 : Table)
    (h1 : extSupported n1 = true) (h2 : extSupported n2 = true)
    (hroot : splitextRoot n1 = splitextRoot n2)
    (hl1 : load (joinPath din n1) = Except.ok df1)
    (hl2 : load (joinPath din n2) = Except.ok df2)
    (hw : writeErr (joinPath dout (outputName n1)) = none) :
    process_directory load writeErr true [n1, n2] din dout eo =
      ⟨2, [],
        [(joinPath din n1, joinPath dout (outputName n1)),
         (joinPath din n2, joinPath dout (outputName n1))],
        [(joinPath dout (outputName n1), to_csv (convertTable df1 eo)),
         (joinPath dout (outputName n1), to_csv (convertTable df2 eo))]⟩ ∧
    lastWrite (process_directory load writeErr true [n1, n2] din dout eo).writes
      (joinPath dout (outputName n1)) = some (to_csv (convertTable df2 eo)) := by
  have hon : outputName n2 = outputName n1 := by
    unfold outputName
    rw [hroot]
  have hpe : process_directory load writeErr true [n1, n2] din dout eo =
      ⟨2, [],
        [(joinPath din n1, joinPath dout (outputName n1)),
         (joinPath din n2, joinPath dout (outputName n1))],
        [(joinPath dout (outputName n1), to_csv (convertTable df1 eo)),
         (joinPath dout (outputName n1), to_csv (convertTable df2 eo))]⟩ := by
    simp [process_directory, procEntries, h1, h2, hon, convert_file, hl1, hl2, hw]
  refine ⟨hpe, ?_⟩
  rw [hpe]
  simp [lastWrite, List.getLast?]

/-- Claim C10 (witness): `a.xlsx` and `a.xls` in one listing — both convert,
and the shared output file holds the second table's serialization. -/
theorem C10_same_stem_overwrite_witness :
    lastWrite (process_directory
      (fun p => if p == "in/a.xlsx" then Except.ok dfContact else Except.ok dfPlain)
      (fun _ => none) true ["a.xlsx", "a.xls"] "in" "out" true).writes
      (joinPath "out" (outputName "a.xlsx")) =
      some (to_csv (convertTable dfPlain true)) :=
  (C10_same_stem_overwrite
    (fun p => if p == "in/a.xlsx" then Except.ok dfContact else Except.ok dfPlain)
    (fun _ => none) "in" "out" true "a.xlsx" "a.xls" dfContact dfPlain
    (by decide) (by decide) (by decide) rfl rfl rfl).2

end CsvConverter
